import Mathlib

/-!
# Verification of the weather-pipeline aggregation and selection stages

Shallow embedding of the repository `async-python-sprint-1` (files
`models.py`, `tasks.py`, `main.py`).  Python floats are modelled as `ℚ`
(all arithmetic the selection stage performs on them — sums and one
division — is exact on the rationals), Python ints as `Int`, JSON values
as an inductive `Json` type, Python dicts as insertion-ordered
association lists, and caught exceptions as `Except` / explicit result
constructors.
-/

namespace WeatherPipeline

/-- From `models.py`, class `DayData`: one calendar day's summary for one
city.  Python `Optional[...]` fields become `Option`; `float` becomes `ℚ`. -/
structure DayData where
  date : String
  hours_start : Option Int
  hours_end : Option Int
  hours_count : Int
  temp_avg : Option ℚ
  relevant_cond_hours : Int
  deriving DecidableEq, Repr

/-- From `models.py`, class `CityData`: the list of analyzed days of one city. -/
structure CityData where
  days : List DayData
  deriving DecidableEq, Repr

/-- From `models.py`, class `WeatherData`: mapping from city name to `CityData`.
A Python dict iterates in insertion order, so it is modelled as an
association list in that order. -/
structure WeatherData where
  cities : List (String × CityData)
  deriving DecidableEq, Repr

/-! ## Selection stage: per-city statistics (`tasks.py` lines 156-165)

The inner `for day in city_data.days` loop of `DataAnalyzingTask.analyze`
accumulates `total_temp`, `total_clear_hours` and `days_count` in a single
left-to-right pass; it is embedded as one `foldl` over the days. -/

/-- One iteration of the inner day loop of `DataAnalyzingTask.analyze`:
if `day.temp_avg is not None` add it to `total_temp` and bump `days_count`;
`relevant_cond_hours` is added unconditionally. -/
def dayStep (acc : ℚ × Int × Nat) (day : DayData) : ℚ × Int × Nat :=
  match day.temp_avg with
  | some t => (acc.1 + t, acc.2.1 + day.relevant_cond_hours, acc.2.2 + 1)
  | none => (acc.1, acc.2.1 + day.relevant_cond_hours, acc.2.2)

/-- The accumulated `(total_temp, total_clear_hours, days_count)` of one
city, `tasks.py` lines 157-165. -/
def cityStats (cd : CityData) : ℚ × Int × Nat :=
  cd.days.foldl dayStep (0, 0, 0)

/-- Python `total_temp` of a city. -/
def totalTemp (cd : CityData) : ℚ := (cityStats cd).1

/-- Python `total_clear_hours` of a city. -/
def totalClearHours (cd : CityData) : Int := (cityStats cd).2.1

/-- Python `days_count` of a city: the number of days with a present `temp_avg`. -/
def daysCount (cd : CityData) : Nat := (cityStats cd).2.2

/-- Python `avg_temp = total_temp / days_count` (`tasks.py` line 168); only used
under the guard `days_count > 0`. -/
def avgTemp (cd : CityData) : ℚ := totalTemp cd / (daysCount cd : ℚ)

/-! ## Selection stage: the running-best state (`tasks.py` lines 152-179)

`max_avg_temp` starts at `float("-inf")`; since every candidate average is
finite, the sentinel is modelled as `none : Option ℚ` with the comparison
rules below (`avg > -inf` always true, `avg == -inf` always false). -/

/-- Running state of the selection loop: `best_cities`, `max_avg_temp`
(`none` models the initial `float("-inf")`), `max_clear_hours`. -/
structure SelState where
  best_cities : List String
  max_avg_temp : Option ℚ
  max_clear_hours : Int
  deriving DecidableEq, Repr

/-- Initial state: `best_cities = []`, `max_avg_temp = float("-inf")`,
`max_clear_hours = 0` (`tasks.py` lines 152-154). -/
def initialSelState : SelState := ⟨[], none, 0⟩

/-- Comparison `avg_temp > max_avg_temp` where `max_avg_temp` may still be the
`-inf` sentinel: a finite value always exceeds `-inf`. -/
def avgGtMax (q : ℚ) : Option ℚ → Bool
  | none => true
  | some m => decide (m < q)

/-- Comparison `avg_temp == max_avg_temp`: a finite value never equals `-inf`. -/
def avgEqMax (q : ℚ) : Option ℚ → Bool
  | none => false
  | some m => decide (q = m)

/-- One iteration of the outer `for city, city_data in ...` loop of
`DataAnalyzingTask.analyze` (`tasks.py` lines 156-179): skip the city when
`days_count = 0`; otherwise reset the best set on a strict win on
`(avg_temp, total_clear_hours)`, append on an exact tie on both, and
leave the state unchanged otherwise. -/
def processCity (s : SelState) (city : String) (cd : CityData) : SelState :=
  let total_temp := totalTemp cd
  let total_clear_hours := totalClearHours cd
  let days_count := daysCount cd
  if 0 < days_count then
    let avg_temp := total_temp / (days_count : ℚ)
    if avgGtMax avg_temp s.max_avg_temp
        || (avgEqMax avg_temp s.max_avg_temp
            && decide (s.max_clear_hours < total_clear_hours)) then
      ⟨[city], some avg_temp, total_clear_hours⟩
    else if avgEqMax avg_temp s.max_avg_temp
        && decide (total_clear_hours = s.max_clear_hours) then
      ⟨s.best_cities ++ [city], s.max_avg_temp, s.max_clear_hours⟩
    else
      s
  else
    s

/-- The whole selection pass: fold `processCity` over the cities in the
dataset's iteration order (`tasks.py` lines 156-179). -/
def selectCities (cities : List (String × CityData)) : SelState :=
  cities.foldl (fun s p => processCity s p.1 p.2) initialSelState

/-! ## JSON values and schema validation (`tasks.py` lines 144-150)

`DataAnalyzingTask.analyze` decodes the aggregated file with `json.load`
and validates the decoded value with `WeatherData(cities=data)`
(pydantic).  The decoded value is modelled by `Json`; an `obj` stands for
an already-decoded Python dict (keys unique, insertion order kept).
Pydantic's validation of `models.py` is embedded field by field: required
fields must be present, `Optional` fields default to `None` and also
accept JSON `null`, `int` fields accept integral numbers, `float` fields
any number, `str` fields strings; extra keys are ignored.  String-to-number
coercion is not modelled; no claim depends on it. -/

/-- A decoded JSON value (the result of `json.load`). -/
inductive Json where
  | null
  | bool (b : Bool)
  | num (q : ℚ)
  | str (s : String)
  | arr (xs : List Json)
  | obj (kvs : List (String × Json))
  deriving Repr

/-- Dict lookup on a decoded JSON object. -/
def objGet (kvs : List (String × Json)) (k : String) : Option Json :=
  (kvs.find? (fun p => p.1 == k)).map (·.2)

/-- A JSON number read at an `int` field: accepted iff it is integral. -/
def asInt (j : Json) : Except String Int :=
  match j with
  | .num q => if q.den = 1 then .ok q.num else .error "integer required"
  | _ => .error "integer required"

/-- A JSON number read at a `float` field. -/
def asFloat (j : Json) : Except String ℚ :=
  match j with
  | .num q => .ok q
  | _ => .error "number required"

/-- An `Optional[int]` field: missing or `null` gives `None`. -/
def asOptInt (j : Option Json) : Except String (Option Int) :=
  match j with
  | none => .ok none
  | some .null => .ok none
  | some v => (asInt v).map some

/-- An `Optional[float]` field: missing or `null` gives `None`. -/
def asOptFloat (j : Option Json) : Except String (Option ℚ) :=
  match j with
  | none => .ok none
  | some .null => .ok none
  | some v => (asFloat v).map some

/-- A required field: missing is a validation error. -/
def requireField (kvs : List (String × Json)) (k : String) :
    Except String Json :=
  match objGet kvs k with
  | some v => .ok v
  | none => .error (k ++ ": field required")

/-- Pydantic validation of one `DayData` (`models.py` lines 6-12):
`date : str` and the two int counters are required, the rest optional. -/
def validateDayData (j : Json) : Except String DayData :=
  match j with
  | .obj kvs => do
    let date ← match objGet kvs "date" with
      | some (.str s) => Except.ok s
      | some _ => Except.error "date: string required"
      | none => Except.error "date: field required"
    let hs ← asOptInt (objGet kvs "hours_start")
    let he ← asOptInt (objGet kvs "hours_end")
    let hc ← (requireField kvs "hours_count").bind asInt
    let ta ← asOptFloat (objGet kvs "temp_avg")
    let rch ← (requireField kvs "relevant_cond_hours").bind asInt
    return ⟨date, hs, he, hc, ta, rch⟩
  | _ => .error "DayData: object required"

/-- Pydantic validation of one `CityData` (`models.py` lines 15-16):
an object with a required `days` list of `DayData`. -/
def validateCityData (j : Json) : Except String CityData :=
  match j with
  | .obj kvs =>
    match objGet kvs "days" with
    | some (.arr xs) => (xs.mapM validateDayData).map CityData.mk
    | some _ => .error "days: list required"
    | none => .error "days: field required"
  | _ => .error "CityData: object required"

/-- Pydantic validation of `WeatherData(cities=data)` (`tasks.py` line 147):
the decoded value must be a dict of city name to `CityData`. -/
def validateWeatherData (j : Json) : Except String WeatherData :=
  match j with
  | .obj kvs =>
    (kvs.mapM (fun p => (validateCityData p.2).map (fun cd => (p.1, cd)))).map
      WeatherData.mk
  | _ => .error "cities: dict required"

/-- Outcome of the selection stage on an already-decoded dataset:
either the logged validation failure (the early `return` at `tasks.py`
lines 148-150, after which no best set is computed or logged), or the
logged best set with its running maxima. -/
inductive AnalyzeOutcome where
  | validationFailed (msg : String)
  | bestResult (state : SelState)
  deriving DecidableEq, Repr

/-- Method `DataAnalyzingTask.analyze` from the decoded JSON on: validate, and on
success run the selection pass (`tasks.py` lines 146-181).  Both branches
are values, never exceptions: the embedding of "caught and logged". -/
def analyzeStage (data : Json) : AnalyzeOutcome :=
  match validateWeatherData data with
  | .error e => .validationFailed e
  | .ok wd => .bestResult (selectCities wd.cities)

/-! ## Aggregation stage (`tasks.py` lines 104-125)

`DataAggregationTask.aggregate` loops over the globbed file list, derives
the city key `os.path.basename(file_name).split("_")[0]`, reads and
decodes each file, and assigns `aggregated_data[city_name] = data`.  The
first read/decode failure raises out of the loop into the `except`
handlers, which log and return: the stage ends with the partial mapping
built so far and writes no output.  File contents stay opaque (`α`);
reading is a function `String → Except String α`. -/

/-- Python `str.split(sep)` for a one-character separator, on the char
list: `"a_b".split("_") = ["a", "b"]`, `"".split("_") = [""]`,
adjacent separators give empty pieces. -/
def splitOnCharAux (c : Char) : List Char → List Char → List (List Char)
  | [], cur => [cur.reverse]
  | x :: xs, cur =>
    if x = c then cur.reverse :: splitOnCharAux c xs []
    else splitOnCharAux c xs (x :: cur)

/-- Python `str.split(sep)` for a one-character separator. -/
def splitOnChar (c : Char) (s : String) : List String :=
  (splitOnCharAux c s.data []).map String.mk

/-- Python `os.path.basename`: the part after the last `/`. -/
def basename (p : String) : String := (splitOnChar '/' p).getLastD ""

/-- The derived city key: the substring of the base filename before the
first underscore, `os.path.basename(file_name).split("_")[0]`
(`tasks.py` line 109). -/
def deriveKey (p : String) : String := (splitOnChar '_' (basename p)).headD ""

/-- Python dict assignment `m[k] = v`: overwrite in place when the key is
present (keys are unique, so "the first occurrence" is "the occurrence"),
append otherwise — insertion order preserved, as in a Python dict. -/
def dictInsert {α : Type} : List (String × α) → String → α → List (String × α)
  | [], k, v => [(k, v)]
  | p :: rest, k, v =>
    if p.1 == k then (k, v) :: rest else p :: dictInsert rest k v

/-- Python dict lookup `m[k]` as an `Option`. -/
def dictFind {α : Type} (k : String) (m : List (String × α)) : Option α :=
  (m.find? (fun p => p.1 == k)).map (·.2)

/-- Result of the aggregation stage: the complete mapping, or — when a
read or decode raised — the partial mapping in memory when the exception
reached the `except` handlers (`tasks.py` lines 120-125). -/
inductive AggResult (α : Type) where
  | ok (m : List (String × α))
  | aborted (partialMap : List (String × α))
  deriving DecidableEq, Repr

/-- The aggregation loop (`tasks.py` lines 108-112): process files left to
right; the first failing read aborts the whole loop with the mapping built
so far. -/
def aggLoop {α : Type} (read : String → Except String α) :
    List String → List (String × α) → AggResult α
  | [], acc => .ok acc
  | f :: rest, acc =>
    match read f with
    | .error _ => .aborted acc
    | .ok v => aggLoop read rest (dictInsert acc (deriveKey f) v)

/-- Method `DataAggregationTask.aggregate` on a given globbed file list, starting
from the empty dict (`tasks.py` lines 104-112). -/
def aggregateFiles {α : Type} (read : String → Except String α)
    (files : List String) : AggResult α :=
  aggLoop read files []

/-! ## Concrete inputs used by witnesses and scenario theorems -/

/-- Decidable equality for `Except`, used to evaluate concrete runs. -/
instance {ε α : Type} [DecidableEq ε] [DecidableEq α] :
    DecidableEq (Except ε α) := fun a b =>
  match a, b with
  | .error x, .error y =>
    if h : x = y then .isTrue (congrArg Except.error h)
    else .isFalse (fun hc => h (Except.error.inj hc))
  | .ok x, .ok y =>
    if h : x = y then .isTrue (congrArg Except.ok h)
    else .isFalse (fun hc => h (Except.ok.inj hc))
  | .error _, .ok _ => .isFalse (fun hc => Except.noConfusion hc)
  | .ok _, .error _ => .isFalse (fun hc => Except.noConfusion hc)

/-- A day with the given `temp_avg` and `relevant_cond_hours`. -/
def mkDay (t : Option ℚ) (h : Int) : DayData :=
  ⟨"2024-01-01", none, none, 24, t, h⟩

/-- A city whose single day averages 20 degrees with 3 favorable hours. -/
def cdAvg20h3 : CityData := ⟨[mkDay (some 20) 3]⟩

/-- A city whose single day averages 20 degrees with 5 favorable hours. -/
def cdAvg20h5 : CityData := ⟨[mkDay (some 20) 5]⟩

/-- A city with one 20-degree day and one temperature-less day. -/
def cdMixed : CityData := ⟨[mkDay (some 20) 3, mkDay none 4]⟩

/-- A city all of whose days lack a temperature. -/
def cdNoTemp : CityData := ⟨[mkDay none 100]⟩

/-- The spec's order-dependent tie scenario: A (avg 20, hours 3),
B (avg 20, hours 5), C (avg 20, hours 5), in that processing order. -/
def orderScenario : List (String × CityData) :=
  [("A", cdAvg20h3), ("B", cdAvg20h5), ("C", cdAvg20h5)]

/-- A well-formed JSON day object whose `hours_count` is the given
integer and whose optional fields are all absent. -/
def dayJsonHours (h : Int) : Json :=
  .obj [("date", .str "2024-01-01"), ("hours_count", .num (h : ℚ)),
        ("relevant_cond_hours", .num 0)]

/-- Two analysis files with distinct derived city keys. -/
def demoFiles : List String :=
  ["results/Moscow_analysis.json", "results/Omsk_analysis.json"]

/-- Decoded content of a demo file, kept abstract as its length. -/
def demoContent (f : String) : Nat := f.length

/-- A reader that succeeds on every demo file. -/
def demoRead (f : String) : Except String Nat := .ok f.length

/-- A reader that fails on the middle demo file. -/
def abortRead (f : String) : Except String Nat :=
  if f == "results/bad_analysis.json" then .error "decode error"
  else .ok f.length

/-! ## Closed forms of the per-city statistics -/

/-- Closed form of the inner day loop: starting from any accumulator it
adds the sum of the present temperatures, the sum of all
`relevant_cond_hours`, and the number of days with a present temperature. -/
theorem foldl_dayStep_eq (days : List DayData) (tt : ℚ) (tch : Int) (dc : Nat) :
    days.foldl dayStep (tt, tch, dc) =
      (tt + (days.filterMap DayData.temp_avg).sum,
       tch + (days.map DayData.relevant_cond_hours).sum,
       dc + (days.filterMap DayData.temp_avg).length) := by
  induction days generalizing tt tch dc with
  | nil => simp
  | cons d rest ih =>
    cases h : d.temp_avg with
    | none =>
      simp only [List.foldl_cons, dayStep, h, ih, List.filterMap_cons,
        List.map_cons, List.sum_cons, Prod.mk.injEq]
      exact ⟨trivial, by ring, trivial⟩
    | some t =>
      simp only [List.foldl_cons, dayStep, h, ih, List.filterMap_cons,
        List.map_cons, List.sum_cons, List.length_cons, Prod.mk.injEq]
      exact ⟨by ring, by ring, by omega⟩

/-- Closed form of `total_temp`: the sum of the present temperatures. -/
theorem totalTemp_eq (cd : CityData) :
    totalTemp cd = (cd.days.filterMap DayData.temp_avg).sum := by
  unfold totalTemp cityStats
  rw [foldl_dayStep_eq]
  simp

/-- Closed form of `total_clear_hours`: the sum over all days. -/
theorem totalClearHours_eq (cd : CityData) :
    totalClearHours cd = (cd.days.map DayData.relevant_cond_hours).sum := by
  unfold totalClearHours cityStats
  rw [foldl_dayStep_eq]
  simp

/-- Closed form of `days_count`: the number of temperature-carrying days. -/
theorem daysCount_eq (cd : CityData) :
    daysCount cd = (cd.days.filterMap DayData.temp_avg).length := by
  unfold daysCount cityStats
  rw [foldl_dayStep_eq]
  simp

/-- Dropping the temperature-less days leaves the present temperatures. -/
theorem filterMap_temp_filter (days : List DayData) :
    (days.filter (fun d => d.temp_avg.isSome)).filterMap DayData.temp_avg =
      days.filterMap DayData.temp_avg := by
  induction days with
  | nil => rfl
  | cons d rest ih => cases h : d.temp_avg <;> simp [List.filter_cons, h, ih]

/-- A city all of whose days lack a temperature has `days_count = 0`. -/
theorem daysCount_eq_zero (cd : CityData)
    (h : ∀ d ∈ cd.days, d.temp_avg = none) : daysCount cd = 0 := by
  rw [daysCount_eq, List.length_eq_zero, List.filterMap_eq_nil_iff]
  exact h

/-- The outer loop leaves the state unchanged on a city whose days all
lack a temperature (the `days_count > 0` guard fails). -/
theorem processCity_all_none (s : SelState) (city : String) (cd : CityData)
    (h : ∀ d ∈ cd.days, d.temp_avg = none) : processCity s city cd = s := by
  have h0 : ¬ 0 < daysCount cd := by simp [daysCount_eq_zero cd h]
  simp [processCity, h0]

/-- C2: for every city with at least one day carrying a defined
`temp_avg`, the selection stage's average temperature is the sum of the
present `temp_avg` values divided by their count, and it is unchanged
when the temperature-less days are removed (so it does not depend on
them). -/
theorem avg_temp_formula (cd : CityData) (h : 0 < daysCount cd) :
    avgTemp cd = (cd.days.filterMap DayData.temp_avg).sum /
        ((cd.days.filterMap DayData.temp_avg).length : ℚ) ∧
    avgTemp cd = avgTemp ⟨cd.days.filter (fun d => d.temp_avg.isSome)⟩ := by
  constructor
  · rw [avgTemp, totalTemp_eq, daysCount_eq]
  · rw [avgTemp, avgTemp, totalTemp_eq, totalTemp_eq, daysCount_eq, daysCount_eq]
    simp [filterMap_temp_filter]

/-- Witness for C2 at a city with one 20-degree day and one
temperature-less day. -/
theorem avg_temp_formula_witness :
    0 < daysCount cdMixed ∧
      (avgTemp cdMixed = (cdMixed.days.filterMap DayData.temp_avg).sum /
          ((cdMixed.days.filterMap DayData.temp_avg).length : ℚ) ∧
       avgTemp cdMixed = avgTemp ⟨cdMixed.days.filter (fun d => d.temp_avg.isSome)⟩) :=
  ⟨by decide, avg_temp_formula cdMixed (by decide)⟩

/-- C3: the selection stage's total favorable-condition hours of a city
is the sum of `relevant_cond_hours` over all of its days — those lacking
a `temp_avg` included, since the sum ranges over every day. -/
theorem total_hours_formula (cd : CityData) :
    totalClearHours cd = (cd.days.map DayData.relevant_cond_hours).sum :=
  totalClearHours_eq cd

/-- C4: a city all of whose days (possibly none) lack a `temp_avg` is
never a selection candidate: processing it leaves the whole running
state — best set, best average, best hours — unchanged, whatever its
favorable-hours total. -/
theorem undefined_city_no_candidate (s : SelState) (city : String)
    (cd : CityData) (h : ∀ d ∈ cd.days, d.temp_avg = none) :
    processCity s city cd = s :=
  processCity_all_none s city cd h

/-- Witness for C4 at a temperature-less city with 100 favorable hours
and at a city with no days at all. -/
theorem undefined_city_no_candidate_witness :
    processCity initialSelState "Z" cdNoTemp = initialSelState ∧
    processCity ⟨["X"], some 20, 5⟩ "E" ⟨[]⟩ = ⟨["X"], some 20, 5⟩ :=
  ⟨undefined_city_no_candidate initialSelState "Z" cdNoTemp (by decide),
   undefined_city_no_candidate ⟨["X"], some 20, 5⟩ "E" ⟨[]⟩ (by decide)⟩

/-- The whole pass is the identity when every city's days all lack a
temperature. -/
theorem foldl_processCity_all_none (cities : List (String × CityData))
    (s : SelState) (h : ∀ p ∈ cities, ∀ d ∈ p.2.days, d.temp_avg = none) :
    cities.foldl (fun t p => processCity t p.1 p.2) s = s := by
  induction cities generalizing s with
  | nil => rfl
  | cons p rest ih =>
    rw [List.foldl_cons, processCity_all_none s p.1 p.2 (h p (by simp))]
    exact ih s (fun q hq => h q (by simp [hq]))

/-- C10: on a validated dataset in which no city has a day with a
defined `temp_avg` (the empty dataset included) the selection pass
finishes with the empty best set, the best average still at the
`-inf` sentinel (`none`) and the best hours still `0`. -/
theorem all_undefined_empty_selection (cities : List (String × CityData))
    (h : ∀ p ∈ cities, ∀ d ∈ p.2.days, d.temp_avg = none) :
    selectCities cities = ⟨[], none, 0⟩ :=
  foldl_processCity_all_none cities initialSelState h

/-- Witness for C10 at the empty dataset and at a two-city dataset with
only undefined temperatures. -/
theorem all_undefined_empty_selection_witness :
    selectCities [] = ⟨[], none, 0⟩ ∧
    selectCities [("N", cdNoTemp), ("E", ⟨[]⟩)] = ⟨[], none, 0⟩ :=
  ⟨all_undefined_empty_selection [] (by simp),
   all_undefined_empty_selection [("N", cdNoTemp), ("E", ⟨[]⟩)] (by decide)⟩

/-! ## The selection step and the order-dependent tie rule -/

@[simp] theorem avgGtMax_none (q : ℚ) : avgGtMax q none = true := rfl

@[simp] theorem avgGtMax_some (q m : ℚ) :
    avgGtMax q (some m) = decide (m < q) := rfl

@[simp] theorem avgEqMax_none (q : ℚ) : avgEqMax q none = false := rfl

@[simp] theorem avgEqMax_some (q m : ℚ) :
    avgEqMax q (some m) = decide (q = m) := rfl

/-- Evaluation of the spec's order-dependent tie scenario: B resets the
best set discarding A, then C ties B. -/
theorem selectCities_orderScenario :
    selectCities orderScenario = ⟨["B", "C"], some 20, 5⟩ := by
  norm_num [selectCities, orderScenario, processCity, initialSelState,
    totalTemp, totalClearHours, daysCount, cityStats, dayStep,
    cdAvg20h3, cdAvg20h5, mkDay]

/-- C1: behaviour of one step of the selection pass on a city with a
defined average (`days_count > 0`): (i) it replaces the entire best set
when its average strictly exceeds the running best (`none` is the
initial `-inf`), or equals it while its hours strictly exceed the
running best hours; (ii) it is appended to the best set when it ties the
running best on both dimensions; (iii) it is discarded — the state is
unchanged — when it loses on average, or ties on average and loses on
hours.  (iv) In particular the scenario A (avg 20, hours 3), B (avg 20,
hours 5), C (avg 20, hours 5), processed in that order, ends with best
set {B, C}, and A is excluded. -/
theorem selection_step_behavior :
    (∀ (s : SelState) (city : String) (cd : CityData), 0 < daysCount cd →
      (s.max_avg_temp = none ∨
        ∃ m, s.max_avg_temp = some m ∧
          (m < avgTemp cd ∨
            (avgTemp cd = m ∧ s.max_clear_hours < totalClearHours cd))) →
      processCity s city cd =
        ⟨[city], some (avgTemp cd), totalClearHours cd⟩) ∧
    (∀ (s : SelState) (city : String) (cd : CityData), 0 < daysCount cd →
      (∃ m, s.max_avg_temp = some m ∧ avgTemp cd = m ∧
        totalClearHours cd = s.max_clear_hours) →
      processCity s city cd =
        ⟨s.best_cities ++ [city], s.max_avg_temp, s.max_clear_hours⟩) ∧
    (∀ (s : SelState) (city : String) (cd : CityData), 0 < daysCount cd →
      (∃ m, s.max_avg_temp = some m ∧
        (avgTemp cd < m ∨
          (avgTemp cd = m ∧ totalClearHours cd < s.max_clear_hours))) →
      processCity s city cd = s) ∧
    (selectCities orderScenario = ⟨["B", "C"], some 20, 5⟩ ∧
      "A" ∉ (selectCities orderScenario).best_cities) := by
  refine ⟨?_, ?_, ?_, ?_⟩
  · intro s city cd hdc hwin
    have hcond : (avgGtMax (avgTemp cd) s.max_avg_temp
        || (avgEqMax (avgTemp cd) s.max_avg_temp
            && decide (s.max_clear_hours < totalClearHours cd))) = true := by
      rcases hwin with hnone | ⟨m, hm, hlt | ⟨heq, hhrs⟩⟩
      · simp [hnone]
      · simp [hm, hlt]
      · simp [hm, heq, hhrs]
    simp only [avgTemp] at hcond
    simp [processCity, hdc, hcond, avgTemp]
  · intro s city cd hdc htie
    obtain ⟨m, hm, heq, hhrs⟩ := htie
    have hgt : avgGtMax (avgTemp cd) s.max_avg_temp = false := by
      simp [hm, heq]
    have heq1 : avgEqMax (avgTemp cd) s.max_avg_temp = true := by
      simp [hm, heq]
    simp only [avgTemp] at hgt heq1
    simp [processCity, hdc, hgt, heq1, hhrs, avgTemp,
      lt_irrefl s.max_clear_hours]
  · intro s city cd hdc hlose
    obtain ⟨m, hm, hcase⟩ := hlose
    rcases hcase with hlt | ⟨heq, hhrs⟩
    · have hgt : avgGtMax (avgTemp cd) s.max_avg_temp = false := by
        simp [hm, not_lt_of_lt hlt]
      have hne : avgEqMax (avgTemp cd) s.max_avg_temp = false := by
        simp [hm, ne_of_lt hlt]
      simp only [avgTemp] at hgt hne
      simp [processCity, hdc, hgt, hne]
    · have hgt : avgGtMax (avgTemp cd) s.max_avg_temp = false := by
        simp [hm, heq]
      have heq1 : avgEqMax (avgTemp cd) s.max_avg_temp = true := by
        simp [hm, heq]
      simp only [avgTemp] at hgt heq1
      simp [processCity, hdc, hgt, heq1, not_lt_of_lt hhrs, ne_of_lt hhrs]
  · refine ⟨selectCities_orderScenario, ?_⟩
    rw [selectCities_orderScenario]
    simp

/-- Witness for C1, exercising reset (on the `-inf` sentinel), tie
append, and discard at concrete inputs. -/
theorem selection_step_behavior_witness :
    processCity initialSelState "B" cdAvg20h5 =
      ⟨["B"], some (avgTemp cdAvg20h5), totalClearHours cdAvg20h5⟩ ∧
    processCity ⟨["B"], some (avgTemp cdAvg20h5), totalClearHours cdAvg20h5⟩
        "C" cdAvg20h5 =
      ⟨["B", "C"], some (avgTemp cdAvg20h5), totalClearHours cdAvg20h5⟩ ∧
    processCity ⟨["B"], some (avgTemp cdAvg20h5), totalClearHours cdAvg20h5⟩
        "A" cdAvg20h3 =
      ⟨["B"], some (avgTemp cdAvg20h5), totalClearHours cdAvg20h5⟩ :=
  ⟨selection_step_behavior.1 initialSelState "B" cdAvg20h5 (by decide)
      (Or.inl rfl),
   selection_step_behavior.2.1 _ "C" cdAvg20h5 (by decide)
      ⟨avgTemp cdAvg20h5, rfl, rfl, rfl⟩,
   selection_step_behavior.2.2.1 _ "A" cdAvg20h3 (by decide)
      ⟨avgTemp cdAvg20h5, rfl, Or.inr ⟨by
        norm_num [avgTemp, totalTemp, daysCount, cityStats, dayStep,
          cdAvg20h3, cdAvg20h5, mkDay], by
        norm_num [totalClearHours, cityStats, dayStep,
          cdAvg20h3, cdAvg20h5, mkDay]⟩⟩⟩

/-! ## The best-set invariant of the selection pass -/

/-- One step of the pass preserves the invariant that every member of
the best set is a processed city whose statistics equal the running
maxima. -/
theorem processCity_inv (pool : List (String × CityData)) (s : SelState)
    (city : String) (cd : CityData)
    (hInv : ∀ c ∈ s.best_cities, ∃ d, (c, d) ∈ pool ∧ 0 < daysCount d ∧
      some (avgTemp d) = s.max_avg_temp ∧
      totalClearHours d = s.max_clear_hours) :
    ∀ c ∈ (processCity s city cd).best_cities,
      ∃ d, (c, d) ∈ pool ++ [(city, cd)] ∧ 0 < daysCount d ∧
        some (avgTemp d) = (processCity s city cd).max_avg_temp ∧
        totalClearHours d = (processCity s city cd).max_clear_hours := by
  intro c hc
  have hWeak : ∀ c ∈ s.best_cities,
      ∃ d, (c, d) ∈ pool ++ [(city, cd)] ∧ 0 < daysCount d ∧
        some (avgTemp d) = s.max_avg_temp ∧
        totalClearHours d = s.max_clear_hours := by
    intro c' hc'
    obtain ⟨d, hd, h1, h2, h3⟩ := hInv c' hc'
    exact ⟨d, List.mem_append_left _ hd, h1, h2, h3⟩
  by_cases hdc : 0 < daysCount cd
  · cases hwin : (avgGtMax (totalTemp cd / (daysCount cd : ℚ)) s.max_avg_temp
        || (avgEqMax (totalTemp cd / (daysCount cd : ℚ)) s.max_avg_temp
            && decide (s.max_clear_hours < totalClearHours cd))) with
    | true =>
      simp only [processCity, hdc, if_true, hwin, if_pos] at hc ⊢
      simp only [List.mem_singleton] at hc
      subst hc
      exact ⟨cd, List.mem_append_right _ (by simp), hdc, by simp [avgTemp],
        rfl⟩
    | false =>
      cases htie : (avgEqMax (totalTemp cd / (daysCount cd : ℚ)) s.max_avg_temp
          && decide (totalClearHours cd = s.max_clear_hours)) with
      | true =>
        simp only [processCity, hdc, hwin, htie] at hc ⊢
        simp only [if_true, if_false, Bool.false_eq_true, if_neg,
          not_false_eq_true] at hc ⊢
        rcases List.mem_append.1 hc with hold | hnew
        · exact hWeak c hold
        · simp only [List.mem_singleton] at hnew
          subst hnew
          rw [Bool.and_eq_true] at htie
          have heq1 : avgEqMax (totalTemp cd / (daysCount cd : ℚ))
              s.max_avg_temp = true := htie.1
          have hhrs : totalClearHours cd = s.max_clear_hours :=
            of_decide_eq_true htie.2
          refine ⟨cd, List.mem_append_right _ (by simp), hdc, ?_, hhrs⟩
          cases hmax : s.max_avg_temp with
          | none => rw [hmax] at heq1; simp [avgEqMax] at heq1
          | some m =>
            rw [hmax] at heq1
            simp only [avgEqMax_some, decide_eq_true_eq] at heq1
            simp [avgTemp, heq1]
      | false =>
        simp only [processCity, hdc, hwin, htie] at hc ⊢
        simp only [if_true, Bool.false_eq_true, if_neg,
          not_false_eq_true] at hc ⊢
        exact hWeak c hc
  · simp only [processCity, hdc, if_neg, not_false_eq_true] at hc ⊢
    exact hWeak c hc

/-- The invariant holds after folding the step over any remaining city
list, for any starting pool and state satisfying it. -/
theorem foldl_processCity_inv (rest : List (String × CityData)) :
    ∀ (pool : List (String × CityData)) (s : SelState),
      (∀ c ∈ s.best_cities, ∃ d, (c, d) ∈ pool ∧ 0 < daysCount d ∧
        some (avgTemp d) = s.max_avg_temp ∧
        totalClearHours d = s.max_clear_hours) →
      ∀ c ∈ (rest.foldl (fun t p => processCity t p.1 p.2) s).best_cities,
        ∃ d, (c, d) ∈ pool ++ rest ∧ 0 < daysCount d ∧
          some (avgTemp d) =
            (rest.foldl (fun t p => processCity t p.1 p.2) s).max_avg_temp ∧
          totalClearHours d =
            (rest.foldl (fun t p => processCity t p.1 p.2) s).max_clear_hours := by
  induction rest with
  | nil => intro pool s h; simpa using h
  | cons p rest ih =>
    intro pool s hInv
    obtain ⟨a, b⟩ := p
    have hstep := processCity_inv pool s a b hInv
    have hres := ih (pool ++ [(a, b)]) (processCity s a b) hstep
    simpa [List.append_assoc] using hres

/-- C9: every member of the best set — at the end of the pass over any
city list, hence at every intermediate point, each being the end of the
pass over a prefix — is a processed city with a defined average whose
average temperature equals the running `max_avg_temp` and whose
favorable-hours total equals the running `max_clear_hours`; so all
members of the best set are exactly tied on both dimensions. -/
theorem best_set_exact_tie (cities : List (String × CityData))
    (city : String) (h : city ∈ (selectCities cities).best_cities) :
    ∃ cd, (city, cd) ∈ cities ∧ 0 < daysCount cd ∧
      some (avgTemp cd) = (selectCities cities).max_avg_temp ∧
      totalClearHours cd = (selectCities cities).max_clear_hours := by
  have hres := foldl_processCity_inv cities [] initialSelState
    (by intro c hc; simp [initialSelState] at hc) city h
  simpa using hres

/-- Witness for C9 at a one-city dataset. -/
theorem best_set_exact_tie_witness :
    ∃ cd, ("A", cd) ∈ [("A", cdAvg20h3)] ∧ 0 < daysCount cd ∧
      some (avgTemp cd) = (selectCities [("A", cdAvg20h3)]).max_avg_temp ∧
      totalClearHours cd =
        (selectCities [("A", cdAvg20h3)]).max_clear_hours :=
  best_set_exact_tie [("A", cdAvg20h3)] "A" (by decide)

/-! ## Aggregation: dict assignment, last-wins, and abort-on-error -/

/-- Lookup in the empty dict. -/
theorem dictFind_nil {α : Type} (q : String) :
    dictFind q ([] : List (String × α)) = none := rfl

/-- Lookup steps over the head entry. -/
theorem dictFind_cons {α : Type} (p : String × α) (m : List (String × α))
    (q : String) :
    dictFind q (p :: m) = if p.1 = q then some p.2 else dictFind q m := by
  by_cases h : p.1 = q
  · have hb : (p.1 == q) = true := by simp [h]
    simp [dictFind, List.find?, hb, h]
  · have hb : (p.1 == q) = false := by simp [h]
    simp [dictFind, List.find?, hb, h]

/-- Lookup after a dict assignment: the assigned key now maps to the new
value; every other key is untouched. -/
theorem dictFind_dictInsert {α : Type} (m : List (String × α))
    (k q : String) (v : α) :
    dictFind q (dictInsert m k v) =
      if k = q then some v else dictFind q m := by
  induction m with
  | nil => simp only [dictInsert, dictFind_cons, dictFind_nil]
  | cons p rest ih =>
    by_cases hp : p.1 = k
    · have hb : (p.1 == k) = true := by simp [hp]
      simp only [dictInsert, hb, if_true, dictFind_cons]
      by_cases h : k = q <;> simp [h, hp]
    · have hb : (p.1 == k) = false := by simp [hp]
      simp only [dictInsert, hb, Bool.false_eq_true, if_false,
        dictFind_cons, ih]
      by_cases h : k = q
      · subst h
        simp [hp]
      · simp [h]

/-- A dict assignment under a key absent from the dict appends the pair. -/
theorem dictInsert_fresh {α : Type} (m : List (String × α)) (k : String)
    (v : α) (h : ∀ p ∈ m, p.1 ≠ k) : dictInsert m k v = m ++ [(k, v)] := by
  induction m with
  | nil => rfl
  | cons p rest ih =>
    have hp : (p.1 == k) = false := by simp [h p (by simp)]
    simp only [dictInsert, hp, List.cons_append, if_false,
      Bool.false_eq_true]
    rw [ih (fun q hq => h q (by simp [hq]))]

/-- An all-successful prefix of the aggregation loop just folds dict
assignments into the accumulator. -/
theorem aggLoop_leading_ok {α : Type} (read : String → Except String α)
    (content : String → α) (pre : List String) :
    ∀ (rest : List String) (acc : List (String × α)),
      (∀ g ∈ pre, read g = Except.ok (content g)) →
      aggLoop read (pre ++ rest) acc =
        aggLoop read rest
          (pre.foldl (fun m g => dictInsert m (deriveKey g) (content g))
            acc) := by
  induction pre with
  | nil => intro rest acc _; rfl
  | cons g pre ih =>
    intro rest acc hok
    have hg : read g = Except.ok (content g) := hok g (by simp)
    simp only [List.cons_append, aggLoop, hg, List.foldl_cons]
    exact ih rest _ (fun g' hg' => hok g' (by simp [hg']))

/-- When every read succeeds the aggregation loop ends normally with the
folded dict. -/
theorem aggLoop_all_ok {α : Type} (read : String → Except String α)
    (content : String → α) (files : List String)
    (acc : List (String × α))
    (hok : ∀ f ∈ files, read f = Except.ok (content f)) :
    aggLoop read files acc =
      AggResult.ok
        (files.foldl (fun m f => dictInsert m (deriveKey f) (content f))
          acc) := by
  have h := aggLoop_leading_ok read content files [] acc hok
  simpa using h

/-- Auxiliary: the last element of a nonempty list, as an `Option.or`. -/
theorem getLast?_cons_or {α : Type} (a : α) (l : List α) :
    (a :: l).getLast? = l.getLast?.or (some a) := by
  induction l generalizing a with
  | nil => rfl
  | cons b l ih =>
    rw [List.getLast?_cons_cons, ih b]
    cases l.getLast? <;> simp [Option.or]

/-- Lookup in the folded dict: the key maps to the content of the last
processed file whose derived key matches ("later files overwrite
earlier ones"), else to its binding in the accumulator. -/
theorem dictFind_foldl_dictInsert {α : Type} (content : String → α)
    (files : List String) :
    ∀ (acc : List (String × α)) (k : String),
      dictFind k
          (files.foldl (fun m f => dictInsert m (deriveKey f) (content f))
            acc) =
        ((files.filter (fun f => deriveKey f == k)).getLast?.map
          content).or (dictFind k acc) := by
  induction files with
  | nil => intro acc k; simp
  | cons f rest ih =>
    intro acc k
    rw [List.foldl_cons, ih]
    by_cases hk : deriveKey f = k
    · rw [List.filter_cons_of_pos (by simp [hk]), getLast?_cons_or,
        dictFind_dictInsert, if_pos hk]
      cases (rest.filter (fun g => deriveKey g == k)).getLast? <;>
        simp [Option.or]
    · rw [List.filter_cons_of_neg (by simp [hk]),
        dictFind_dictInsert, if_neg hk]

/-- Folding dict assignments whose keys are pairwise distinct and absent
from the accumulator appends one pair per file. -/
theorem foldl_dictInsert_fresh {α : Type} (content : String → α)
    (files : List String) :
    ∀ (acc : List (String × α)),
      (∀ f ∈ files, ∀ p ∈ acc, p.1 ≠ deriveKey f) →
      (files.map deriveKey).Nodup →
      files.foldl (fun m f => dictInsert m (deriveKey f) (content f)) acc =
        acc ++ files.map (fun f => (deriveKey f, content f)) := by
  induction files with
  | nil => intro acc _ _; simp
  | cons f rest ih =>
    intro acc hfresh hnd
    rw [List.map_cons, List.nodup_cons] at hnd
    rw [List.foldl_cons,
      dictInsert_fresh acc (deriveKey f) (content f)
        (fun p hp => hfresh f (by simp) p hp),
      ih (acc ++ [(deriveKey f, content f)]) ?_ hnd.2]
    · simp
    · intro g hg p hp
      rcases List.mem_append.1 hp with hpa | hpf
      · exact hfresh g (by simp [hg]) p hpa
      · simp only [List.mem_singleton] at hpf
        subst hpf
        intro hEq
        refine hnd.1 ?_
        rw [show deriveKey f = deriveKey g from hEq]
        exact List.mem_map_of_mem deriveKey hg

/-- Under pairwise-distinct derived keys, exactly one file carries a
given file's key. -/
theorem filter_key_single (files : List String)
    (hnd : (files.map deriveKey).Nodup) (f : String) (hf : f ∈ files) :
    files.filter (fun g => deriveKey g == deriveKey f) = [f] := by
  induction files with
  | nil => cases hf
  | cons g rest ih =>
    rw [List.map_cons, List.nodup_cons] at hnd
    rcases List.mem_cons.1 hf with rfl | hfr
    · rw [List.filter_cons_of_pos (by simp)]
      have hnil : rest.filter (fun g' => deriveKey g' == deriveKey f) = [] := by
        rw [List.filter_eq_nil_iff]
        intro g' hg'
        simp only [beq_iff_eq]
        intro hEq
        exact hnd.1 (hEq ▸ List.mem_map_of_mem deriveKey hg')
      rw [hnil]
    · have hne : deriveKey g ≠ deriveKey f := by
        intro hEq
        exact hnd.1 (hEq ▸ List.mem_map_of_mem deriveKey hfr)
      rw [List.filter_cons_of_neg (by simp [hne]), ih hnd.2 hfr]

/-- C5: aggregation keys each file by the part of its base filename
before the first underscore; with pairwise-distinct derived keys the
mapping has exactly one entry per file, each key bound to that file's
decoded content, and in general — so in particular on a collision — a
key is bound to the content of the last-processed file that carries it. -/
theorem aggregation_key_mapping {α : Type} (read : String → Except String α)
    (content : String → α) (files : List String)
    (hok : ∀ f ∈ files, read f = Except.ok (content f)) :
    ∃ m, aggregateFiles read files = AggResult.ok m ∧
      ((files.map deriveKey).Nodup →
        m.length = files.length ∧
        ∀ f ∈ files, dictFind (deriveKey f) m = some (content f)) ∧
      (∀ k, dictFind k m =
        (files.filter (fun f => deriveKey f == k)).getLast?.map content) := by
  refine ⟨files.foldl (fun m f => dictInsert m (deriveKey f) (content f)) [],
    aggLoop_all_ok read content files [] hok, ?_, ?_⟩
  · intro hnd
    constructor
    · rw [foldl_dictInsert_fresh content files [] (by simp) hnd]
      simp
    · intro f hf
      rw [dictFind_foldl_dictInsert, filter_key_single files hnd f hf]
      simp [dictFind, Option.or]
  · intro k
    rw [dictFind_foldl_dictInsert]
    simp [dictFind, Option.or_none]

/-- Witness for C5 at two files with distinct derived keys. -/
theorem aggregation_key_mapping_witness :
    (∀ f ∈ demoFiles, demoRead f = Except.ok (demoContent f)) ∧
    ∃ m, aggregateFiles demoRead demoFiles = AggResult.ok m ∧
      ((demoFiles.map deriveKey).Nodup →
        m.length = demoFiles.length ∧
        ∀ f ∈ demoFiles, dictFind (deriveKey f) m = some (demoContent f)) ∧
      (∀ k, dictFind k m =
        (demoFiles.filter
          (fun f => deriveKey f == k)).getLast?.map demoContent) :=
  ⟨by decide,
   aggregation_key_mapping demoRead demoContent demoFiles (by decide)⟩

/-- C6: the first failing read or decode aborts the whole aggregation —
the exception is caught (the result is a value, not a propagated error)
and the stage ends holding exactly the partial mapping folded from the
files processed before the failure; the files after it are never
reached. -/
theorem aggregation_abort_partial {α : Type}
    (read : String → Except String α) (content : String → α)
    (pre post : List String) (f e : String)
    (hpre : ∀ g ∈ pre, read g = Except.ok (content g))
    (hf : read f = Except.error e) :
    aggregateFiles read (pre ++ f :: post) =
      AggResult.aborted
        (pre.foldl (fun m g => dictInsert m (deriveKey g) (content g))
          []) := by
  show aggLoop read (pre ++ f :: post) [] = _
  rw [aggLoop_leading_ok read content pre (f :: post) [] hpre]
  simp [aggLoop, hf]

/-- Witness for C6: the second of three files fails to decode; the stage
ends with the one-entry partial mapping. -/
theorem aggregation_abort_partial_witness :
    (∀ g ∈ ["results/Moscow_analysis.json"],
        abortRead g = Except.ok (demoContent g)) ∧
    abortRead "results/bad_analysis.json" = Except.error "decode error" ∧
    aggregateFiles abortRead
        (["results/Moscow_analysis.json"] ++
          "results/bad_analysis.json" :: ["results/Omsk_analysis.json"]) =
      AggResult.aborted
        (["results/Moscow_analysis.json"].foldl
          (fun m g => dictInsert m (deriveKey g) (demoContent g)) []) :=
  ⟨by decide, by decide,
   aggregation_abort_partial abortRead demoContent
     ["results/Moscow_analysis.json"] ["results/Omsk_analysis.json"]
     "results/bad_analysis.json" "decode error" (by decide) (by decide)⟩

/-! ## Selection stage: validation failure and the hours-count range -/

/-- C7: when schema validation of the decoded dataset fails, the stage
ends in the logged `validationFailed` outcome — a value, so no exception
propagates — and no best set is computed or logged. -/
theorem validation_failure_halts (j : Json) (e : String)
    (h : validateWeatherData j = Except.error e) :
    analyzeStage j = AnalyzeOutcome.validationFailed e ∧
      ∀ s, analyzeStage j ≠ AnalyzeOutcome.bestResult s := by
  have hs : analyzeStage j = AnalyzeOutcome.validationFailed e := by
    simp [analyzeStage, h]
  refine ⟨hs, fun s hc => ?_⟩
  rw [hs] at hc
  exact AnalyzeOutcome.noConfusion hc

/-- Witness for C7 at a dataset that is not a dict. -/
theorem validation_failure_halts_witness :
    validateWeatherData (Json.num 3) =
        Except.error "cities: dict required" ∧
      (analyzeStage (Json.num 3) =
          AnalyzeOutcome.validationFailed "cities: dict required" ∧
        ∀ s, analyzeStage (Json.num 3) ≠ AnalyzeOutcome.bestResult s) :=
  ⟨rfl, validation_failure_halts (Json.num 3) "cities: dict required" rfl⟩

/-- Counterexample to C8 as stated: schema validation accepts a day
object whose `hours_count` is the negative integer `-1` (`models.py`
line 10 declares `hours_count: int` with no lower bound), so not every
accepted `DayData` satisfies `hours_count >= 0`. -/
theorem hours_count_claim_counterexample :
    ∃ d : DayData, validateDayData (dayJsonHours (-1)) = Except.ok d ∧
      d.hours_count < 0 :=
  ⟨⟨"2024-01-01", none, none, -1, none, 0⟩, by rfl, by decide⟩

/-- C8 amended: schema validation constrains `hours_count` to be an
integer but not its sign — a well-formed day object with any integer
`hours_count`, negative included, is accepted with that value, and hence
reaches the selection stage. -/
theorem hours_count_unconstrained (h : Int) :
    validateDayData (dayJsonHours h) =
      Except.ok ⟨"2024-01-01", none, none, h, none, 0⟩ := by
  rfl

end WeatherPipeline
